import Mathlib

/-!
Verification model of `src/proxy.py`, a transparent stratum-style TCP proxy.

The development shallowly embeds the program: byte buffers are `List Nat`,
decoded text is `List Char`, the JSON decoder (`json.loads`) is modelled by a
fuel-based recursive-descent routine `jsonParse`, strict UTF-8 decoding
(`bytes.decode`) by `utf8Decode`, and the per-direction relay loop `forward`
as a pure fold over a trace of socket events.  Logging is modelled as a list
of structured `LogEvent`s; the global `shares_submitted` counter is threaded
through the client-direction inspection exactly where the code mutates it.
-/

/-- A decoded JSON value, as produced by a model of `json.loads`.
Object members keep textual order; lookups take the last binding, matching
Python dict construction from duplicate keys.  Numbers keep their lexeme. -/
inductive JValue where
  | null : JValue
  | bool (b : Bool) : JValue
  | num (lexeme : List Char) : JValue
  | str (s : List Char) : JValue
  | arr (items : List JValue) : JValue
  | obj (members : List (List Char × JValue)) : JValue

/-- JSON insignificant whitespace (RFC 8259): space, tab, LF, CR. -/
def isJsonWs (c : Char) : Bool :=
  c = ' ' || c = '\t' || c = '\n' || c = '\r'

/-- Drop leading JSON whitespace. -/
def skipWs : List Char → List Char
  | [] => []
  | c :: r => if isJsonWs c then skipWs r else c :: r

/-- Python `str.strip()` whitespace set (ASCII part). -/
def isPyWs (c : Char) : Bool :=
  c = ' ' || c = '\t' || c = '\n' || c = '\r' || c = '\x0b' || c = '\x0c'

/-- Truthiness of `msg.strip()` in Python: the line has a non-whitespace char. -/
def stripNonempty (msg : List Char) : Bool :=
  msg.any (fun c => !(isPyWs c))

/-- Decode one hexadecimal digit. -/
def hexDigit (c : Char) : Option Nat :=
  if '0' ≤ c ∧ c ≤ '9' then some (c.toNat - '0'.toNat)
  else if 'a' ≤ c ∧ c ≤ 'f' then some (c.toNat - 'a'.toNat + 10)
  else if 'A' ≤ c ∧ c ≤ 'F' then some (c.toNat - 'A'.toNat + 10)
  else none

/-- Parse the remainder of a JSON string literal (the opening quote already
consumed), returning the decoded characters and the rest of the input.
Unescaped control characters are rejected, as by Python in strict mode. -/
def parseStringRest : List Char → Option (List Char × List Char)
  | [] => none
  | '"' :: r => some ([], r)
  | '\\' :: e :: r =>
    match e with
    | '"' => (parseStringRest r).map (fun p => ('"' :: p.1, p.2))
    | '\\' => (parseStringRest r).map (fun p => ('\\' :: p.1, p.2))
    | '/' => (parseStringRest r).map (fun p => ('/' :: p.1, p.2))
    | 'b' => (parseStringRest r).map (fun p => ('\x08' :: p.1, p.2))
    | 'f' => (parseStringRest r).map (fun p => ('\x0c' :: p.1, p.2))
    | 'n' => (parseStringRest r).map (fun p => ('\n' :: p.1, p.2))
    | 'r' => (parseStringRest r).map (fun p => ('\r' :: p.1, p.2))
    | 't' => (parseStringRest r).map (fun p => ('\t' :: p.1, p.2))
    | 'u' =>
      match r with
      | h1 :: h2 :: h3 :: h4 :: r2 =>
        match hexDigit h1, hexDigit h2, hexDigit h3, hexDigit h4 with
        | some d1, some d2, some d3, some d4 =>
          let cp := ((d1 * 16 + d2) * 16 + d3) * 16 + d4
          (parseStringRest r2).map (fun p => (Char.ofNat cp :: p.1, p.2))
        | _, _, _, _ => none
      | _ => none
    | _ => none
  | c :: r =>
    if c.toNat < 0x20 then none
    else (parseStringRest r).map (fun p => (c :: p.1, p.2))

/-- Take a maximal run of decimal digits. -/
def spanDigits : List Char → List Char × List Char
  | [] => ([], [])
  | c :: r =>
    if '0' ≤ c ∧ c ≤ '9' then
      let p := spanDigits r
      (c :: p.1, p.2)
    else ([], c :: r)

/-- Parse the integer part of a JSON number after an optional sign:
either a single `0` or a nonzero digit followed by digits. -/
def parseIntPart : List Char → Option (List Char × List Char)
  | [] => none
  | c :: r =>
    if c = '0' then some ([c], r)
    else if '1' ≤ c ∧ c ≤ '9' then
      let p := spanDigits r
      some (c :: p.1, p.2)
    else none

/-- Parse an optional fraction part `.digits`. -/
def parseFracPart (s : List Char) : Option (List Char × List Char) :=
  match s with
  | '.' :: r =>
    match spanDigits r with
    | ([], _) => none
    | (ds, r2) => some ('.' :: ds, r2)
  | _ => some ([], s)

/-- Parse an optional exponent part. -/
def parseExpPart (s : List Char) : Option (List Char × List Char) :=
  match s with
  | 'e' :: r | 'E' :: r =>
    match r with
    | '+' :: r2 =>
      match spanDigits r2 with
      | ([], _) => none
      | (ds, r3) => some ('e' :: '+' :: ds, r3)
    | '-' :: r2 =>
      match spanDigits r2 with
      | ([], _) => none
      | (ds, r3) => some ('e' :: '-' :: ds, r3)
    | _ =>
      match spanDigits r with
      | ([], _) => none
      | (ds, r3) => some ('e' :: ds, r3)
  | _ => some ([], s)

/-- Parse a JSON number lexeme (sign, integer, fraction, exponent). -/
def parseNumber (s : List Char) : Option (List Char × List Char) :=
  match s with
  | '-' :: r =>
    match parseIntPart r with
    | none => none
    | some (ip, r2) =>
      match parseFracPart r2 with
      | none => none
      | some (fp, r3) =>
        match parseExpPart r3 with
        | none => none
        | some (ep, r4) => some ('-' :: (ip ++ fp ++ ep), r4)
  | _ =>
    match parseIntPart s with
    | none => none
    | some (ip, r2) =>
      match parseFracPart r2 with
      | none => none
      | some (fp, r3) =>
        match parseExpPart r3 with
        | none => none
        | some (ep, r4) => some (ip ++ fp ++ ep, r4)

/-- Mode of the recursive-descent JSON core: a value, the items of an array,
or the members of an object.  The flag marks the position right after the
opening bracket, where an empty collection may close immediately. -/
inductive PMode where
  | val : PMode
  | items (atStart : Bool) : PMode
  | members (atStart : Bool) : PMode

/-- Intermediate results of the JSON core, one constructor per mode. -/
inductive PRes where
  | v (x : JValue) (rest : List Char) : PRes
  | items (xs : List JValue) (rest : List Char) : PRes
  | members (kvs : List (List Char × JValue)) (rest : List Char) : PRes

/-- Fuel-based recursive-descent core of the `json.loads` model. -/
def parseCore : Nat → PMode → List Char → Option PRes
  | 0, _, _ => none
  | fuel + 1, PMode.val, s =>
    match skipWs s with
    | 'n' :: 'u' :: 'l' :: 'l' :: r => some (PRes.v JValue.null r)
    | 't' :: 'r' :: 'u' :: 'e' :: r => some (PRes.v (JValue.bool true) r)
    | 'f' :: 'a' :: 'l' :: 's' :: 'e' :: r => some (PRes.v (JValue.bool false) r)
    | '"' :: r =>
      match parseStringRest r with
      | some (cs, r2) => some (PRes.v (JValue.str cs) r2)
      | none => none
    | '[' :: r =>
      match parseCore fuel (PMode.items true) r with
      | some (PRes.items xs r2) => some (PRes.v (JValue.arr xs) r2)
      | _ => none
    | '\x7b' :: r =>
      match parseCore fuel (PMode.members true) r with
      | some (PRes.members kvs r2) => some (PRes.v (JValue.obj kvs) r2)
      | _ => none
    | s2 =>
      match parseNumber s2 with
      | some (lex, r2) => some (PRes.v (JValue.num lex) r2)
      | none => none
  | fuel + 1, PMode.items atStart, s =>
    if atStart && (match skipWs s with | ']' :: _ => true | _ => false) then
      match skipWs s with
      | ']' :: r => some (PRes.items [] r)
      | _ => none
    else
      match parseCore fuel PMode.val s with
      | some (PRes.v x r2) =>
        match skipWs r2 with
        | ',' :: r3 =>
          match parseCore fuel (PMode.items false) r3 with
          | some (PRes.items xs r4) => some (PRes.items (x :: xs) r4)
          | _ => none
        | ']' :: r3 => some (PRes.items [x] r3)
        | _ => none
      | _ => none
  | fuel + 1, PMode.members atStart, s =>
    if atStart && (match skipWs s with | '\x7d' :: _ => true | _ => false) then
      match skipWs s with
      | '\x7d' :: r => some (PRes.members [] r)
      | _ => none
    else
      match skipWs s with
      | '"' :: r =>
        match parseStringRest r with
        | some (k, r2) =>
          match skipWs r2 with
          | ':' :: r3 =>
            match parseCore fuel PMode.val r3 with
            | some (PRes.v x r4) =>
              match skipWs r4 with
              | ',' :: r5 =>
                match parseCore fuel (PMode.members false) r5 with
                | some (PRes.members kvs r6) => some (PRes.members ((k, x) :: kvs) r6)
                | _ => none
              | '\x7d' :: r5 => some (PRes.members [(k, x)] r5)
              | _ => none
            | _ => none
          | _ => none
        | none => none
      | _ => none

/-- Model of `json.loads`: parse one JSON value and require only whitespace
after it.  The fuel is ample for any input of the given length. -/
def jsonParse (s : List Char) : Option JValue :=
  match parseCore (2 * s.length + 4) PMode.val s with
  | some (PRes.v v rest) => if skipWs rest = [] then some v else none
  | _ => none

/-- Last-binding lookup in a decoded JSON object, matching Python dicts built
from JSON text with duplicate keys. -/
def dictGet (kvs : List (List Char × JValue)) (k : List Char) : Option JValue :=
  match kvs with
  | [] => none
  | (k2, v) :: rest =>
    match dictGet rest k with
    | some v2 => some v2
    | none => if k2 = k then some v else none

/-- Strict UTF-8 decoding of a byte sequence, the model of `bytes.decode()`:
rejects stray continuation bytes, overlong encodings, surrogates, and code
points beyond U+10FFFF, as CPython does. -/
def utf8Decode : List Nat → Option (List Char)
  | [] => some []
  | b :: rest =>
    if b < 0x80 then
      (utf8Decode rest).map (fun cs => Char.ofNat b :: cs)
    else if b < 0xC2 then none
    else if b < 0xE0 then
      match rest with
      | c1 :: rest2 =>
        if 0x80 ≤ c1 ∧ c1 < 0xC0 then
          (utf8Decode rest2).map (fun cs => Char.ofNat ((b - 0xC0) * 64 + (c1 - 0x80)) :: cs)
        else none
      | [] => none
    else if b < 0xF0 then
      match rest with
      | c1 :: c2 :: rest2 =>
        if 0x80 ≤ c1 ∧ c1 < 0xC0 ∧ 0x80 ≤ c2 ∧ c2 < 0xC0 then
          let cp := (b - 0xE0) * 4096 + (c1 - 0x80) * 64 + (c2 - 0x80)
          if 0x800 ≤ cp ∧ ¬(0xD800 ≤ cp ∧ cp ≤ 0xDFFF) then
            (utf8Decode rest2).map (fun cs => Char.ofNat cp :: cs)
          else none
        else none
      | _ => none
    else if b < 0xF5 then
      match rest with
      | c1 :: c2 :: c3 :: rest2 =>
        if 0x80 ≤ c1 ∧ c1 < 0xC0 ∧ 0x80 ≤ c2 ∧ c2 < 0xC0 ∧ 0x80 ≤ c3 ∧ c3 < 0xC0 then
          let cp := (b - 0xF0) * 262144 + (c1 - 0x80) * 4096 + (c2 - 0x80) * 64 + (c3 - 0x80)
          if 0x10000 ≤ cp ∧ cp ≤ 0x10FFFF then
            (utf8Decode rest2).map (fun cs => Char.ofNat cp :: cs)
          else none
        else none
      | _ => none
    else none

/-- Python `text.split(sep)` semantics for a single-character separator on
characters: empty input yields one empty piece, separators delimit pieces. -/
def splitNl : List Char → List (List Char)
  | [] => [[]]
  | c :: rest =>
    let r := splitNl rest
    if c = '\n' then [] :: r
    else
      match r with
      | h :: t => (c :: h) :: t
      | [] => [[c]]

/-- Byte-level newline split, used to state the per-line reading of claims. -/
def splitNlBytes : List Nat → List (List Nat)
  | [] => [[]]
  | b :: rest =>
    let r := splitNlBytes rest
    if b = 10 then [] :: r
    else
      match r with
      | h :: t => (b :: h) :: t
      | [] => [[b]]

example : jsonParse "\x7b\"method\":\"submit\",\"id\":1\x7d".data =
    some (JValue.obj [("method".data, JValue.str "submit".data),
                      ("id".data, JValue.num "1".data)]) := by rfl

example : jsonParse "\x7b\"method\":\"sub".data = none := by rfl

example : utf8Decode [0xFF] = none := by rfl

example : splitNl "ab\nc\n".data = ["ab".data, "c".data, []] := by rfl

/-- Severity levels of the `logging` calls the program makes. -/
inductive LogLevel where
  | info : LogLevel
  | error : LogLevel
  | debug : LogLevel
deriving DecidableEq

/-- Structured model of each `logging.*` call in `forward`, one constructor
per call site. -/
inductive LogEvent where
  | clientMethodLog (method : JValue) : LogEvent
  | shareLog (total : Nat) (payload : JValue) : LogEvent
  | clientMsgLog (method : JValue) (payload : JValue) : LogEvent
  | parseErrLog (isFromClient : Bool) : LogEvent
  | newJobLog : LogEvent
  | connClosedLog (srcName : String) : LogEvent
  | connErrLog (srcName dstName : String) : LogEvent
  | fwdLog (srcName dstName : String) : LogEvent
  | closedSockLog (name : String) : LogEvent

/-- Severity of each modelled log event, matching the `logging` level used
at the corresponding call site in `forward`. -/
def LogEvent.level : LogEvent → LogLevel
  | .clientMethodLog _ => .info
  | .shareLog _ _ => .info
  | .clientMsgLog _ _ => .info
  | .parseErrLog _ => .error
  | .newJobLog => .info
  | .connClosedLog _ => .info
  | .connErrLog _ _ => .error
  | .fwdLog _ _ => .debug
  | .closedSockLog _ => .debug

/-- The key `"method"` as characters. -/
def methodKey : List Char := "method".data

/-- The string `"submit"` as characters. -/
def submitChars : List Char := "submit".data

/-- The default `"unknown"` of `payload.get("method", "unknown")`. -/
def unknownChars : List Char := "unknown".data

/-- The key `"result"` as characters. -/
def resultKey : List Char := "result".data

/-- The key `"job"` as characters. -/
def jobKey : List Char := "job".data

/-- Model of `payload.get` with default `"unknown"` on a decoded object. -/
def methodOf (kvs : List (List Char × JValue)) : JValue :=
  (dictGet kvs methodKey).getD (JValue.str unknownChars)

/-- The Python comparison `method == "submit"`: true exactly when the value
is the string `"submit"`; any non-string value compares unequal. -/
def isSubmitMethod (v : JValue) : Bool :=
  match v with
  | JValue.str s => decide (s = submitChars)
  | _ => false

/-- One client-direction line of the inspection loop in `forward`
(lines 53-69 of `src/proxy.py`).  `none` models an uncaught exception
reaching the outer handler: `payload.get` raises `AttributeError` when the
decoded JSON value is not a dict.  A `json.JSONDecodeError` is caught by the
inner handler and skips only this line. -/
def clientLineStep (c : Nat) (logs : List LogEvent) (msg : List Char) :
    Option (Nat × List LogEvent) :=
  if stripNonempty msg then
    match jsonParse msg with
    | none => some (c, logs)
    | some payload =>
      match payload with
      | JValue.obj kvs =>
        let method := methodOf kvs
        if isSubmitMethod method then
          some (c + 1, logs ++ [LogEvent.clientMethodLog method,
                                LogEvent.shareLog (c + 1) payload,
                                LogEvent.clientMsgLog method payload])
        else
          some (c, logs ++ [LogEvent.clientMethodLog method,
                            LogEvent.clientMsgLog method payload])
      | _ => none
  else some (c, logs)

/-- Run the client-direction line loop over the split lines of one buffer.
An uncaught per-line exception aborts the remaining lines and is logged by
the outer `except` handler of the client branch. -/
def clientLinesRun : Nat → List LogEvent → List (List Char) → Nat × List LogEvent
  | c, logs, [] => (c, logs)
  | c, logs, m :: rest =>
    match clientLineStep c logs m with
    | some (c2, logs2) => clientLinesRun c2 logs2 rest
    | none => (c, logs ++ [LogEvent.parseErrLog true])

/-- Client-direction inspection of one received chunk: `data.decode()`
(strict UTF-8, a failure is caught by the outer handler and logged) followed
by `split('\n')` and the per-line loop.  Returns the updated global share
counter and the log events produced. -/
def processClientChunk (c : Nat) (data : List Nat) : Nat × List LogEvent :=
  match utf8Decode data with
  | none => (c, [LogEvent.parseErrLog true])
  | some text => clientLinesRun c [] (splitNl text)

/-- Membership test `"result" in payload` for a JSON array, where Python
compares each element for equality with the string. -/
def arrHasResultStr : List JValue → Bool
  | [] => false
  | JValue.str s :: rest => if s = resultKey then true else arrHasResultStr rest
  | _ :: rest => arrHasResultStr rest

/-- Is `pat` an infix run of `hay`?  Models Python substring membership. -/
def subSeqAt (pat hay : List Char) : Bool :=
  match hay with
  | [] => decide (pat = [])
  | _ :: t => decide (pat = hay.take pat.length) || subSeqAt pat t

/-- One upstream-direction line of the inspection loop in `forward`
(lines 76-88 of `src/proxy.py`).  `none` models a `TypeError` reaching the
outer handler: `"result" in payload` on a non-container, or `payload["result"]`
indexing a list or string with a string key. -/
def upstreamLineStep (logs : List LogEvent) (msg : List Char) :
    Option (List LogEvent) :=
  if stripNonempty msg then
    match jsonParse msg with
    | none => some logs
    | some payload =>
      match payload with
      | JValue.obj kvs =>
        match dictGet kvs resultKey with
        | some (JValue.obj rkvs) =>
          if (dictGet rkvs jobKey).isSome then some (logs ++ [LogEvent.newJobLog])
          else some logs
        | some _ => some logs
        | none => some logs
      | JValue.arr xs => if arrHasResultStr xs then none else some logs
      | JValue.str s => if subSeqAt resultKey s then none else some logs
      | _ => none
  else some logs

/-- Run the upstream-direction line loop over the split lines of one buffer. -/
def upstreamLinesRun : List LogEvent → List (List Char) → List LogEvent
  | logs, [] => logs
  | logs, m :: rest =>
    match upstreamLineStep logs m with
    | some logs2 => upstreamLinesRun logs2 rest
    | none => logs ++ [LogEvent.parseErrLog false]

/-- Upstream-direction inspection of one received chunk.  The upstream branch
of `forward` never touches `shares_submitted`, so no counter is threaded. -/
def processUpstreamChunk (data : List Nat) : List LogEvent :=
  match utf8Decode data with
  | none => [LogEvent.parseErrLog false]
  | some text => upstreamLinesRun [] (splitNl text)

/-- Inspection of one chunk in the direction given by `is_from_client`,
returning the updated share counter and logs. -/
def inspectStep (isFromClient : Bool) (c : Nat) (chunk : List Nat) :
    Nat × List LogEvent :=
  if isFromClient then processClientChunk c chunk
  else (c, processUpstreamChunk chunk)

/-- Name of a pump source, from the direction flag. -/
def srcNameOf (isFromClient : Bool) : String :=
  if isFromClient then "Client" else "Pool"

/-- Name of a pump destination, from the direction flag. -/
def dstNameOf (isFromClient : Bool) : String :=
  if isFromClient then "Pool" else "Client"

/-- One socket interaction of a pump iteration: `recv` raising, `recv`
returning zero bytes (orderly peer close), or `recv` returning a chunk with
the subsequent `sendall` either succeeding or raising. -/
inductive NetEvent where
  | recvErr : NetEvent
  | recvClosed : NetEvent
  | recvData (chunk : List Nat) (sendOk : Bool) : NetEvent

/-- Outcome of the `while True` loop of `forward` on a trace of socket
events: final share counter, log events, chunks written to the destination,
and whether the loop has exited (`terminated = false` means the trace ended
with the pump still blocked in `recv`). -/
structure LoopOut where
  counter : Nat
  logs : List LogEvent
  sent : List (List Nat)
  terminated : Bool

/-- The `while True` loop of `forward`: read, inspect (all inspection
exceptions are caught inside the loop), forward the exact received chunk
with `sendall`, and exit on zero-length read or on a recv/send error. -/
def pumpLoop (isFromClient : Bool) : Nat → List NetEvent → LoopOut
  | c, [] => ⟨c, [], [], false⟩
  | c, NetEvent.recvErr :: _ =>
    ⟨c, [LogEvent.connErrLog (srcNameOf isFromClient) (dstNameOf isFromClient)], [], true⟩
  | c, NetEvent.recvClosed :: _ =>
    ⟨c, [LogEvent.connClosedLog (srcNameOf isFromClient)], [], true⟩
  | c, NetEvent.recvData chunk sendOk :: rest =>
    let st := inspectStep isFromClient c chunk
    if sendOk then
      let r := pumpLoop isFromClient st.1 rest
      ⟨r.counter,
       st.2 ++ [LogEvent.fwdLog (srcNameOf isFromClient) (dstNameOf isFromClient)] ++ r.logs,
       chunk :: r.sent, r.terminated⟩
    else
      ⟨st.1, st.2 ++ [LogEvent.connErrLog (srcNameOf isFromClient) (dstNameOf isFromClient)],
       [], true⟩

/-- Result of one directional pump: the loop outcome plus whether each of
the two sockets of the session has been closed by the teardown block. -/
structure PumpResult where
  counter : Nat
  logs : List LogEvent
  sent : List (List Nat)
  terminated : Bool
  srcClosed : Bool
  dstClosed : Bool

/-- The full `forward` function of `src/proxy.py`: the relay loop followed by
the teardown block that closes both the source and the destination sockets
(each close attempt is logged at debug level).  The teardown runs exactly
when the loop has exited. -/
def forward (isFromClient : Bool) (c : Nat) (events : List NetEvent) : PumpResult :=
  let r := pumpLoop isFromClient c events
  if r.terminated then
    ⟨r.counter,
     r.logs ++ [LogEvent.closedSockLog (srcNameOf isFromClient),
                LogEvent.closedSockLog (dstNameOf isFromClient)],
     r.sent, true, true, true⟩
  else ⟨r.counter, r.logs, r.sent, false, false, false⟩

/-- The chunks a pump writes, read off the socket trace alone: every chunk
received before the loop ends, in order, independent of inspection. -/
def sentSpec : List NetEvent → List (List Nat)
  | [] => []
  | NetEvent.recvErr :: _ => []
  | NetEvent.recvClosed :: _ => []
  | NetEvent.recvData chunk true :: rest => chunk :: sentSpec rest
  | NetEvent.recvData _ false :: _ => []

/-- Does this line classify as a share submission?  A line counts exactly
when it is non-blank, decodes as a JSON object, and its `method` member is
the string `"submit"`. -/
def isSubmitLine (msg : List Char) : Bool :=
  stripNonempty msg &&
    match jsonParse msg with
    | some (JValue.obj kvs) => isSubmitMethod (methodOf kvs)
    | _ => false

/-- The claim-side reading of the inspector for claim C5: every byte-level
line of the chunk is decoded and classified independently, a line that fails
to decode (invalid UTF-8 or malformed JSON) being discarded while all other
lines are still classified. -/
def linewiseSpecCounter (c : Nat) (data : List Nat) : Nat :=
  c + ((splitNlBytes data).filter (fun lb =>
        match utf8Decode lb with
        | some cs => isSubmitLine cs
        | none => false)).length

example : isSubmitLine "\x7b\"method\":\"submit\",\"id\":1\x7d".data = true := by rfl

example : (processClientChunk 0 ("\x7b\"method\":\"submit\"\x7d\n".data.map Char.toNat)).1 = 1 := by rfl

/-- The observable per-connection steps of `handle_client`, in program
order: the two connect log lines, the dial-failure branch (error log and
client close), the two pump-thread starts, the registry append and its log. -/
inductive HandlerStep where
  | logConnecting : HandlerStep
  | logConnected : HandlerStep
  | logDialFailed : HandlerStep
  | closeClient : HandlerStep
  | startPumpClientToPool : HandlerStep
  | startPumpPoolToClient : HandlerStep
  | registerSession : HandlerStep
  | logAdded : HandlerStep
deriving DecidableEq, BEq

/-- The step sequence of `handle_client` as written in `src/proxy.py`
(lines 26-120), by dial outcome: on failure it logs the error, closes the
client socket and returns; on success it starts `t1` then `t2` and then
appends the socket pair to `connections` under the lock. -/
def handle_client (dialOk : Bool) : List HandlerStep :=
  if dialOk then
    [HandlerStep.logConnecting, HandlerStep.logConnected,
     HandlerStep.startPumpClientToPool, HandlerStep.startPumpPoolToClient,
     HandlerStep.registerSession, HandlerStep.logAdded]
  else
    [HandlerStep.logConnecting, HandlerStep.logDialFailed, HandlerStep.closeClient]

/-- Effect of one handler step on the `connections` registry: only
`registerSession` appends; no step removes. -/
def applyStep (sid : Nat) (reg : List Nat) : HandlerStep → List Nat
  | HandlerStep.registerSession => reg ++ [sid]
  | _ => reg

/-- Registry effect of a whole step sequence. -/
def applySteps (sid : Nat) (reg : List Nat) (steps : List HandlerStep) : List Nat :=
  steps.foldl (applyStep sid) reg

/-- The accept loop of `main`: each accepted connection is handed to
`handle_client` on its own thread and the loop moves on to the next accept,
whatever the dial outcome was. -/
def listenerRun : List Bool → List Nat → Nat → List Nat
  | [], reg, _ => reg
  | dialOk :: rest, reg, sid =>
    listenerRun rest (applySteps sid reg (handle_client dialOk)) (sid + 1)

/-- One summary line of `hashrate_monitor`: the derived rate and the active
connection count read under the lock. -/
structure StatsLog where
  rate : Rat
  activeConns : Nat
deriving DecidableEq

/-- One wake of `hashrate_monitor` (lines 122-132 of `src/proxy.py`):
`elapsed = now - start_time`; when `elapsed > 0` it logs
`shares / elapsed * 60` together with the connection count, otherwise it
logs nothing.  Python float arithmetic is modelled exactly over `Rat`. -/
def hashrate_monitor (now startTime : Rat) (shares conns : Nat) : Option StatsLog :=
  let elapsed := now - startTime
  if elapsed > 0 then some ⟨(shares : Rat) / elapsed * 60, conns⟩ else none

/-- Process-global mutable state touched by session teardown: the
`connections` registry and which sockets have been closed, per session id. -/
structure ProxyState where
  connections : List Nat
  clientClosed : List Nat
  poolClosed : List Nat
deriving DecidableEq

/-- The state at process start: nothing registered, nothing closed. -/
def initState : ProxyState := ⟨[], [], []⟩

/-- The registry append performed by `handle_client` after a successful
dial: `connections.append((client_socket, pool_socket))` under the lock. -/
def registerConn (sid : Nat) (s : ProxyState) : ProxyState :=
  { s with connections := s.connections ++ [sid] }

/-- The teardown block at the end of `forward`: it closes both sockets of
the session.  No statement of the program ever removes an element from
`connections`, so the registry field is left exactly as it was. -/
def pumpExit (sid : Nat) (s : ProxyState) : ProxyState :=
  { s with clientClosed := sid :: s.clientClosed,
           poolClosed := sid :: s.poolClosed }

/-- First chunk of a submit message split mid-line across two reads. -/
def fragChunkA : List Nat := "\x7b\"method\":\"sub".data.map Char.toNat

/-- Second chunk of the same submit message, ending in the newline. -/
def fragChunkB : List Nat := "mit\",\"id\":1\x7d\n".data.map Char.toNat

/-- A chunk holding one well-formed submit line followed by an invalid
UTF-8 byte and a final newline. -/
def mixedChunk : List Nat :=
  "\x7b\"method\":\"submit\"\x7d\n".data.map Char.toNat ++ [0xFF, 0x0A]

/-- A malformed (truncated) JSON line. -/
def badLineChars : List Char := "\x7b\"method\":\"sub".data

/-- A well-formed submit line. -/
def submitLineChars : List Char := "\x7b\"method\":\"submit\"\x7d".data

theorem clientLineStep_cases (c : Nat) (logs : List LogEvent) (m : List Char) :
    clientLineStep c logs m = none ∨
    (∃ l2, clientLineStep c logs m = some (c, l2)) ∨
    (∃ l2, clientLineStep c logs m = some (c + 1, l2)) := by
  unfold clientLineStep
  cases hs : stripNonempty m
  · simp [hs]
  · simp only [hs, if_true]
    cases hp : jsonParse m
    · simp
    case some payload =>
      cases payload <;> simp
      case obj kvs =>
        cases hif : isSubmitMethod (methodOf kvs) <;> simp [hif]

theorem clientLineStep_submit (c : Nat) (logs : List LogEvent) (m : List Char)
    (h : isSubmitLine m = true) :
    ∃ l2, clientLineStep c logs m = some (c + 1, l2) := by
  unfold isSubmitLine at h
  rw [Bool.and_eq_true] at h
  obtain ⟨hs, hm⟩ := h
  unfold clientLineStep
  simp only [hs, if_true]
  cases hp : jsonParse m
  · rw [hp] at hm; simp at hm
  case some payload =>
    rw [hp] at hm
    cases payload <;> simp at hm
    case obj kvs => simp [hm]

theorem clientLineStep_not_submit (c : Nat) (logs : List LogEvent) (m : List Char)
    (h : isSubmitLine m = false) :
    clientLineStep c logs m = none ∨
    ∃ l2, clientLineStep c logs m = some (c, l2) := by
  unfold isSubmitLine at h
  unfold clientLineStep
  cases hs : stripNonempty m
  · simp [hs]
  · rw [hs] at h
    simp only [Bool.true_and] at h
    simp only [hs, if_true]
    cases hp : jsonParse m
    · simp
    case some payload =>
      rw [hp] at h
      cases payload <;> simp at h ⊢
      case obj kvs => simp [h]

theorem clientLineStep_noparse (c : Nat) (logs : List LogEvent) (m : List Char)
    (h : jsonParse m = none) :
    clientLineStep c logs m = some (c, logs) := by
  unfold clientLineStep
  cases hs : stripNonempty m <;> simp [hs, h]

theorem clientLinesRun_mono (msgs : List (List Char)) :
    ∀ c logs, c ≤ (clientLinesRun c logs msgs).1 := by
  induction msgs with
  | nil => intro c logs; exact Nat.le_refl c
  | cons m rest ih =>
    intro c logs
    rcases clientLineStep_cases c logs m with h | ⟨l2, h⟩ | ⟨l2, h⟩
    · simp [clientLinesRun, h]
    · simp only [clientLinesRun, h]
      exact ih c l2
    · simp only [clientLinesRun, h]
      exact Nat.le_trans (Nat.le_succ c) (ih (c + 1) l2)

theorem clientLinesRun_all_submit (msgs : List (List Char)) :
    ∀ c logs, (∀ m ∈ msgs, isSubmitLine m = true) →
      (clientLinesRun c logs msgs).1 = c + msgs.length := by
  induction msgs with
  | nil => intro c logs _; simp [clientLinesRun]
  | cons m rest ih =>
    intro c logs h
    obtain ⟨l2, hstep⟩ := clientLineStep_submit c logs m (h m (by simp))
    simp only [clientLinesRun, hstep]
    rw [ih (c + 1) l2 (fun x hx => h x (by simp [hx]))]
    simp only [List.length_cons]
    omega

theorem clientLinesRun_single (c : Nat) (logs : List LogEvent) (m : List Char) :
    (clientLinesRun c logs [m]).1 = if isSubmitLine m then c + 1 else c := by
  cases hsub : isSubmitLine m
  · rcases clientLineStep_not_submit c logs m hsub with h | ⟨l2, h⟩ <;>
      simp [clientLinesRun, h]
  · obtain ⟨l2, h⟩ := clientLineStep_submit c logs m hsub
    simp [clientLinesRun, h]

theorem processClientChunk_mono (c : Nat) (data : List Nat) :
    c ≤ (processClientChunk c data).1 := by
  unfold processClientChunk
  cases utf8Decode data
  · exact Nat.le_refl c
  case some text => exact clientLinesRun_mono (splitNl text) c []

theorem inspectStep_mono (isFromClient : Bool) (c : Nat) (chunk : List Nat) :
    c ≤ (inspectStep isFromClient c chunk).1 := by
  cases isFromClient
  · exact Nat.le_refl c
  · exact processClientChunk_mono c chunk

theorem pumpLoop_counter_mono (isFromClient : Bool) (evs : List NetEvent) :
    ∀ c, c ≤ (pumpLoop isFromClient c evs).counter := by
  induction evs with
  | nil => intro c; exact Nat.le_refl c
  | cons ev rest ih =>
    intro c
    cases ev with
    | recvErr => exact Nat.le_refl c
    | recvClosed => exact Nat.le_refl c
    | recvData chunk sendOk =>
      cases sendOk with
      | false =>
        simp only [pumpLoop]
        exact inspectStep_mono isFromClient c chunk
      | true =>
        simp only [pumpLoop]
        exact Nat.le_trans (inspectStep_mono isFromClient c chunk)
          (ih (inspectStep isFromClient c chunk).1)

theorem pumpLoop_sent (isFromClient : Bool) (evs : List NetEvent) :
    ∀ c, (pumpLoop isFromClient c evs).sent = sentSpec evs := by
  induction evs with
  | nil => intro c; rfl
  | cons ev rest ih =>
    intro c
    cases ev with
    | recvErr => rfl
    | recvClosed => rfl
    | recvData chunk sendOk =>
      cases sendOk with
      | false => rfl
      | true => simp [pumpLoop, sentSpec, ih]

theorem pumpLoop_upstream_counter (evs : List NetEvent) :
    ∀ c, (pumpLoop false c evs).counter = c := by
  induction evs with
  | nil => intro c; rfl
  | cons ev rest ih =>
    intro c
    cases ev with
    | recvErr => rfl
    | recvClosed => rfl
    | recvData chunk sendOk =>
      cases sendOk with
      | false => rfl
      | true => simp [pumpLoop, inspectStep, ih]

theorem forward_sent_eq (isFromClient : Bool) (c : Nat) (evs : List NetEvent) :
    (forward isFromClient c evs).sent = sentSpec evs := by
  unfold forward
  cases h : (pumpLoop isFromClient c evs).terminated <;>
    simp [h, pumpLoop_sent]

theorem forward_closes (isFromClient : Bool) (c : Nat) (evs : List NetEvent) :
    (forward isFromClient c evs).srcClosed = (forward isFromClient c evs).terminated ∧
    (forward isFromClient c evs).dstClosed = (forward isFromClient c evs).terminated := by
  unfold forward
  cases h : (pumpLoop isFromClient c evs).terminated <;> simp [h]

theorem forward_counter_mono (isFromClient : Bool) (c : Nat) (evs : List NetEvent) :
    c ≤ (forward isFromClient c evs).counter := by
  unfold forward
  cases ht : (pumpLoop isFromClient c evs).terminated <;>
    simpa [ht] using pumpLoop_counter_mono isFromClient evs c

theorem forward_upstream_counter (c : Nat) (evs : List NetEvent) :
    (forward false c evs).counter = c := by
  unfold forward
  cases ht : (pumpLoop false c evs).terminated <;>
    simpa [ht] using pumpLoop_upstream_counter evs c

/-- C1: for every chunk of bytes a pump reads from its source socket, the
pump writes exactly those bytes, unmodified and in the same order, to the
destination socket, regardless of whether inspection of the chunk succeeds
or fails: the sequence of chunks written equals `sentSpec` of the socket
trace, a projection that never looks at chunk contents or at the inspection
state. -/
theorem C1_byte_transparency (isFromClient : Bool) (c : Nat) (evs : List NetEvent) :
    (forward isFromClient c evs).sent = sentSpec evs :=
  forward_sent_eq isFromClient c evs

/-- C2: the code keeps no fragment buffer across reads, so a single submit
message split across two reads is classified zero times, while the same
bytes in one read are classified once.  This evaluates the embedded code at
the failing input of the claim. -/
theorem C2_fragment_loss :
    (processClientChunk 0 fragChunkA).1 = 0 ∧
    (processClientChunk (processClientChunk 0 fragChunkA).1 fragChunkB).1 = 0 ∧
    (processClientChunk 0 (fragChunkA ++ fragChunkB)).1 = 1 :=
  ⟨rfl, rfl, rfl⟩

/-- C3: processing N client-direction lines that each decode as JSON with
method `"submit"` increases the share counter by exactly N, and the counter
never decreases over any pump run in either direction. -/
theorem C3_counter_exact :
    (∀ c logs msgs, (∀ m ∈ msgs, isSubmitLine m = true) →
        (clientLinesRun c logs msgs).1 = c + msgs.length) ∧
    (∀ isFromClient c evs, c ≤ (forward isFromClient c evs).counter) := by
  exact ⟨fun c logs msgs h => clientLinesRun_all_submit msgs c logs h,
         fun isFromClient c evs => forward_counter_mono isFromClient c evs⟩

/-- Witness for C3 at one concrete submit line. -/
theorem C3_counter_exact_witness :
    (∀ m ∈ [submitLineChars], isSubmitLine m = true) ∧
    (clientLinesRun 0 [] [submitLineChars]).1 = 0 + 1 := by
  have h : ∀ m ∈ [submitLineChars], isSubmitLine m = true := by
    intro m hm
    rw [List.mem_singleton] at hm
    subst hm
    rfl
  exact ⟨h, C3_counter_exact.1 0 [] [submitLineChars] h⟩

/-- C4: the claim says a session is removed from the registry exactly once,
when both its pumps have terminated.  The teardown of `forward` closes both
sockets but no statement of the program removes from `connections`: after
both pumps of a registered session have exited, the session is still in the
registry. -/
theorem C4_registry_never_removed :
    (∀ sid s, (pumpExit sid s).connections = s.connections) ∧
    0 ∈ (pumpExit 0 (pumpExit 0 (registerConn 0 initState))).connections ∧
    0 ∈ (pumpExit 0 (pumpExit 0 (registerConn 0 initState))).clientClosed ∧
    0 ∈ (pumpExit 0 (pumpExit 0 (registerConn 0 initState))).poolClosed :=
  ⟨fun _ _ => rfl, by decide, by decide, by decide⟩

/-- C5 counterexample: a buffer holding a well-formed submit line followed
by an invalid UTF-8 byte.  Line-local discarding (the claim) classifies the
submit line; the code skips inspection of the whole buffer because
`data.decode()` fails before any line is seen. -/
theorem C5_counterexample :
    (processClientChunk 0 mixedChunk).1 = 0 ∧ linewiseSpecCounter 0 mixedChunk = 1 :=
  ⟨rfl, rfl⟩

/-- C5 (amended): a line that fails JSON decoding is discarded affecting
only that line — processing continues with the remaining lines, nothing
escapes, and subsequent well-formed lines are classified normally — while a
buffer that fails UTF-8 decoding has inspection of that entire buffer
skipped with one logged error (the chunk is still forwarded either way, see
the byte-transparency theorem). -/
theorem C5_decode_failure_isolation :
    (∀ c logs m rest, jsonParse m = none →
        clientLinesRun c logs (m :: rest) = clientLinesRun c logs rest) ∧
    (∀ c data, utf8Decode data = none →
        processClientChunk c data = (c, [LogEvent.parseErrLog true])) := by
  constructor
  · intro c logs m rest h
    simp [clientLinesRun, clientLineStep_noparse c logs m h]
  · intro c data h
    simp [processClientChunk, h]

/-- Witness for C5 at a concrete malformed line followed by a submit line,
and at a concrete invalid UTF-8 buffer. -/
theorem C5_decode_failure_isolation_witness :
    jsonParse badLineChars = none ∧
    clientLinesRun 0 [] [badLineChars, submitLineChars] =
      clientLinesRun 0 [] [submitLineChars] ∧
    utf8Decode [0xFF] = none ∧
    processClientChunk 5 [0xFF] = (5, [LogEvent.parseErrLog true]) :=
  ⟨rfl, C5_decode_failure_isolation.1 0 [] badLineChars [submitLineChars] rfl,
   rfl, C5_decode_failure_isolation.2 5 [0xFF] rfl⟩

/-- C6: a zero-length read terminates the pump loop at once with an
info-level log (not an error), leaving the remaining trace unread, and any
pump termination closes both the source and the destination sockets. -/
theorem C6_zero_read_and_teardown :
    (∀ isFromClient c rest,
        forward isFromClient c (NetEvent.recvClosed :: rest) =
          ⟨c, [LogEvent.connClosedLog (srcNameOf isFromClient),
               LogEvent.closedSockLog (srcNameOf isFromClient),
               LogEvent.closedSockLog (dstNameOf isFromClient)], [], true, true, true⟩) ∧
    (∀ s, (LogEvent.connClosedLog s).level = LogLevel.info) ∧
    (∀ isFromClient c evs, (forward isFromClient c evs).terminated = true →
        (forward isFromClient c evs).srcClosed = true ∧
        (forward isFromClient c evs).dstClosed = true) := by
  refine ⟨fun isFromClient c rest => rfl, fun _ => rfl, ?_⟩
  intro isFromClient c evs h
  obtain ⟨h1, h2⟩ := forward_closes isFromClient c evs
  exact ⟨h1.trans h, h2.trans h⟩

/-- Witness for C6 at a concrete single-event trace ending in an orderly
close. -/
theorem C6_zero_read_and_teardown_witness :
    (forward true 0 [NetEvent.recvClosed]).terminated = true ∧
    (forward true 0 [NetEvent.recvClosed]).srcClosed = true ∧
    (forward true 0 [NetEvent.recvClosed]).dstClosed = true :=
  ⟨rfl, (C6_zero_read_and_teardown.2.2 true 0 [NetEvent.recvClosed] rfl).1,
        (C6_zero_read_and_teardown.2.2 true 0 [NetEvent.recvClosed] rfl).2⟩

/-- C7: on a dial failure the handler logs the error, closes the client
socket, registers nothing, starts no pump, and the accept loop simply moves
on to the next connection with the registry untouched. -/
theorem C7_dial_failure_local :
    (∀ sid reg, applySteps sid reg (handle_client false) = reg) ∧
    HandlerStep.registerSession ∉ handle_client false ∧
    HandlerStep.startPumpClientToPool ∉ handle_client false ∧
    HandlerStep.startPumpPoolToClient ∉ handle_client false ∧
    HandlerStep.closeClient ∈ handle_client false ∧
    HandlerStep.logDialFailed ∈ handle_client false ∧
    (∀ rest reg sid, listenerRun (false :: rest) reg sid = listenerRun rest reg (sid + 1)) := by
  refine ⟨fun _ _ => rfl, ?_, ?_, ?_, ?_, ?_, fun _ _ _ => rfl⟩
  all_goals simp [handle_client]

/-- C8: each wake of the stats reporter logs `shares / elapsed * 60`
together with the active connection count exactly when `elapsed > 0`, skips
the report when `elapsed ≤ 0`, and with zero shares the logged rate is 0. -/
theorem C8_stats_report (now startTime : Rat) (shares conns : Nat) :
    (now - startTime > 0 →
        hashrate_monitor now startTime shares conns =
          some ⟨(shares : Rat) / (now - startTime) * 60, conns⟩) ∧
    (now - startTime ≤ 0 → hashrate_monitor now startTime shares conns = none) ∧
    (now - startTime > 0 → hashrate_monitor now startTime 0 conns = some ⟨0, conns⟩) := by
  refine ⟨fun h => ?_, fun h => ?_, fun h => ?_⟩
  · simp [hashrate_monitor, h]
  · simp only [hashrate_monitor]
    rw [if_neg (not_lt.mpr h)]
  · simp [hashrate_monitor, h]

/-- Witness for C8: ten seconds elapsed, zero shares, zero sessions. -/
theorem C8_stats_report_witness :
    ((10 : Rat) - 0 > 0) ∧ hashrate_monitor 10 0 0 0 = some ⟨0, 0⟩ :=
  ⟨by norm_num, (C8_stats_report 10 0 0 0).2.2 (by norm_num)⟩

/-- C9 counterexample: in `handle_client` the registry append does not come
before the pump-thread starts; the first pump start strictly precedes the
registration in the step sequence of a successful dial. -/
theorem C9_counterexample :
    ¬ ((handle_client true).findIdx (· == HandlerStep.registerSession) <
       (handle_client true).findIdx (· == HandlerStep.startPumpClientToPool)) := by
  decide

/-- C9 (amended): for every accepted connection with a successful dial, the
two pump threads are started first and the session is registered in the
registry afterwards (start-then-register ordering). -/
theorem C9_start_then_register :
    HandlerStep.registerSession ∈ handle_client true ∧
    (handle_client true).findIdx (· == HandlerStep.startPumpClientToPool) <
      (handle_client true).findIdx (· == HandlerStep.registerSession) ∧
    (handle_client true).findIdx (· == HandlerStep.startPumpPoolToClient) <
      (handle_client true).findIdx (· == HandlerStep.registerSession) := by
  refine ⟨?_, ?_, ?_⟩
  · simp [handle_client]
  · decide
  · decide

/-- C10: a from-upstream pump never changes the share counter whatever its
trace contains, and a single client-direction line changes the counter
exactly when it is a submit line — any other method string, or an absent
method, leaves it unchanged. -/
theorem C10_upstream_frame :
    (∀ c evs, (forward false c evs).counter = c) ∧
    (∀ c logs m, (clientLinesRun c logs [m]).1 = if isSubmitLine m then c + 1 else c) :=
  ⟨fun c evs => forward_upstream_counter c evs,
   fun c logs m => clientLinesRun_single c logs m⟩
